import Mathlib

/-!
Verification of the cryptoballot transaction-validation and
threshold-decryption core against its specification.

Two layers of the repository are embedded:

* the decryption pipeline of `src/cryptoballot/src/decryption.rs`
  (`PartialDecryptionTransaction`, `DecryptionTransaction`, `decrypt_vote`),
  together with the data model those validators consume — the `Identifier`
  algebra, the `Election`/`Mix`/`Vote`/`KeyGenPublicKey` records and the
  `Store` interface.  The record types and the identifier constructor are
  not part of the provided sources; they are modelled from the spec
  (§3, §4.1, §6) and each such definition is marked `Modelled from the spec`.
  External cryptography (cryptid's `DecryptShare::verify` and the threshold
  `Decryption` combiner) is out of scope per §1 and is abstracted as an
  oracle: the combiner state is exactly the ordered list of `add_share`
  calls and `finish` is an arbitrary function of that state.

* the wire layer of `src/cryptoballot/src/transaction.rs`
  (`TransactionIdentifier` hex rendering/parsing and the tagged
  `Transaction` envelope with its canonical CBOR packing).  serde_cbor is
  modelled at the CBOR value level; the derived field layout of the payload
  records absent from the sources is modelled from the spec (§3).

Machine bytes are `Fin 256`; panics in the Rust source (`unwrap`,
out-of-range slicing) are modelled as an explicit outcome where a claim
depends on them.
-/

/-- A machine byte. -/
abbrev Byte := Fin 256

/-- Uuids are carried as their 16 raw bytes (`uuid::Uuid::as_bytes`). -/
abbrev Uuid := List Byte

namespace Core

/-- Modelled from the spec (§3): the transaction-type byte of the full
data model, enumerated `Election, KeyGenCommitment, KeyGenShare,
KeyGenPublicKey, Vote, VotingEnd, Mix, PartialDecryption, Decryption`.
The source enum is not among the provided files; `decryption.rs` consumes
it via `Into<u8>` and equality. -/
inductive TransactionType
  | Election
  | KeyGenCommitment
  | KeyGenShare
  | KeyGenPublicKey
  | Vote
  | VotingEnd
  | Mix
  | PartialDecryption
  | Decryption
deriving DecidableEq, Repr

/-- The discriminant byte of a transaction type (`TransactionType as u8`),
in the spec's enumeration order. -/
def TransactionType.toByte : TransactionType → Byte
  | .Election => 0
  | .KeyGenCommitment => 1
  | .KeyGenShare => 2
  | .KeyGenPublicKey => 3
  | .Vote => 4
  | .VotingEnd => 5
  | .Mix => 6
  | .PartialDecryption => 7
  | .Decryption => 8

/-- Modelled from the spec (§3): a 32-byte identifier — 15 bytes of
`election_id`, one type byte, 16 bytes of `unique_id`.  The source's
`Identifier` type is not among the provided files. -/
structure Identifier where
  election_id : List Byte
  transaction_type : TransactionType
  unique_id : List Byte
deriving DecidableEq, Repr

/-- Modelled from the spec (§4.1): `Identifier::new` copies the election
prefix and takes the (first) 16 bytes of the supplied unique info
(`Decryption` passes a 32-byte encoding and keeps the first 16). -/
def Identifier.new (election_id : Identifier) (tt : TransactionType)
    (unique_info : List Byte) : Identifier :=
  { election_id := election_id.election_id
    transaction_type := tt
    unique_id := unique_info.take 16 }

/-- Modelled from the spec (§3): the 32-byte wire encoding of an
identifier, election prefix then type byte then unique id
(`Identifier::to_bytes`, used by `DecryptionTransaction::new`). -/
def Identifier.to_bytes (id : Identifier) : List Byte :=
  id.election_id ++ [id.transaction_type.toByte] ++ id.unique_id

/-- Opaque ed25519 public key (external primitive, §1 out of scope). -/
abbrev PublicKey := Nat

/-- Opaque cryptid partial-decryption share (external primitive). -/
abbrev DecryptShare := Nat

/-- Opaque keygen public-key proof (external primitive). -/
abbrev KeygenProof := Nat

/-- An ElGamal ciphertext pair, opaque to the validator (spec glossary). -/
structure Ciphertext where
  c1 : Nat
  c2 : Nat
deriving DecidableEq, Repr

instance : Inhabited Ciphertext := ⟨⟨0, 0⟩⟩

/-- Opaque error of the external threshold combiner. -/
abbrev DecryptError := Nat

/-- Modelled from the spec (§3): a trustee entry of the Election record,
`\x7bid, index ∈ [1,255], public_key\x7d`. -/
structure Trustee where
  id : Uuid
  index : Byte
  public_key : PublicKey
deriving DecidableEq, Repr

/-- Modelled from the spec (§3): the mix-net configuration of an
Election, `\x7bnum_shuffles\x7d`. -/
structure MixConfig where
  num_shuffles : Nat
deriving DecidableEq, Repr

/-- Modelled from the spec (§3): the Election record, restricted to the
fields the decryption validators read. -/
structure ElectionTransaction where
  id : Identifier
  trustees : List Trustee
  trustees_threshold : Nat
  mixnet : Option MixConfig
deriving DecidableEq, Repr

/-- Modelled from the spec: `Election::get_full_trustees`, the declared
trustee list with indices. -/
def ElectionTransaction.get_full_trustees (e : ElectionTransaction) :
    List Trustee :=
  e.trustees

/-- Modelled from the spec: `Election::get_trustee`, lookup of a declared
trustee by uuid. -/
def ElectionTransaction.get_trustee (e : ElectionTransaction) (id : Uuid) :
    Option Trustee :=
  e.trustees.find? (fun t => t.id = id)

/-- Modelled from the spec (§3): the Vote record, restricted to the field
the decryption validators read. -/
structure VoteTransaction where
  id : Identifier
  anonymous_key : PublicKey
  encrypted_vote : Ciphertext
deriving DecidableEq, Repr

/-- Modelled from the spec (§3): a Mix record,
`\x7bmix_index ∈ [0, num_shuffles), reencryption, proof\x7d` (proof elided,
it is not read by the decryption validators). -/
structure MixTransaction where
  id : Identifier
  mix_index : Nat
  reencryption : List Ciphertext
deriving DecidableEq, Repr

/-- KeyGenPublicKey record (spec §3): trustee id, trustee key and the
keygen proof the partial share is verified against. -/
structure KeyGenPublicKeyTransaction where
  id : Identifier
  trustee_id : Uuid
  trustee_public_key : PublicKey
  public_key_proof : KeygenProof
deriving DecidableEq, Repr

/-- `PartialDecryptionTransaction` (decryption.rs). -/
structure PartialDecryptionTransaction where
  id : Identifier
  election_id : Identifier
  upstream_id : Identifier
  upstream_index : Nat
  trustee_id : Uuid
  trustee_public_key : PublicKey
  partial_decryption : DecryptShare
deriving DecidableEq, Repr

/-- `DecryptionTransaction` (decryption.rs). -/
structure DecryptionTransaction where
  id : Identifier
  election_id : Identifier
  vote_id : Identifier
  trustees : List Uuid
  decrypted_vote : List Byte
deriving DecidableEq, Repr

/-- The validation error surface (spec §7 restricted to the constructors
`decryption.rs` raises; the source's spelling `MisingVotingEndTransaction`
is kept). -/
inductive ValidationError
  | TransactionNotFound (id : Identifier)
  | MisingVotingEndTransaction
  | InvalidUpstreamID
  | InvalidUpstreamIndex
  | WrongMixSelected
  | TrusteeDoesNotExist (id : Uuid)
  | TrusteePublicKeyMismatch (id : Uuid)
  | IdentifierBadComposition
  | PartialDecryptionProofFailed
  | NotEnoughShares (required got : Nat)
  | VoteDecryptionFailed (e : DecryptError)
  | VoteDecryptionMismatch
deriving DecidableEq, Repr

/-- The store interface consumed by the validators (spec §6).  Each typed
accessor yields the inner transaction or `none` (`NotFound`); the `Signed`
envelope is stripped because `validate_tx` never reads the signature.
`get_multiple` is used only to collect the `KeyGenPublicKey` transactions
of the election, so it is modelled at that type. -/
structure Store where
  get_election : Identifier → Option ElectionTransaction
  get_transaction : Identifier → Option TransactionType
  get_vote : Identifier → Option VoteTransaction
  get_mix : Identifier → Option MixTransaction
  get_keygen_public_key : Identifier → Option KeyGenPublicKeyTransaction
  get_partial_decryption : Identifier → Option PartialDecryptionTransaction
  get_multiple_keygen_public_keys : Identifier → List KeyGenPublicKeyTransaction

/-- The external cryptography consumed by the validators (spec §1 declares
it out of scope and specified only by interface).  `verify_share` is
cryptid's `DecryptShare::verify`; `finish` is the threshold combiner
`cryptid::threshold::Decryption::finish`, a function of the threshold, the
ciphertext and the ordered list of `add_share` calls
`(trustee index, keygen proof, share)`. -/
structure Crypto where
  verify_share : DecryptShare → KeygenProof → Ciphertext → Bool
  finish : Nat → Ciphertext → List (Nat × KeygenProof × DecryptShare) →
    Except DecryptError (List Byte)

/-- `PartialDecryptionTransaction::build_id` (decryption.rs, has an ID
format of election-id, type, then upstream-tx-type, 14 bytes of upstream
unique info, trustee index). -/
def PartialDecryptionTransaction.build_id (election_id : Identifier)
    (upstream_id : Identifier) (trustee_index : Byte) : Identifier :=
  let unique_info : List Byte :=
    upstream_id.transaction_type.toByte ::
      (upstream_id.unique_id.take 14 ++ [trustee_index])
  Identifier.new election_id TransactionType.PartialDecryption unique_info

/-- The ciphertext-resolution block of
`PartialDecryptionTransaction::validate_tx` (decryption.rs): either the
vote's ciphertext (at upstream index 0) or the selected reencryption of
the referenced mix, after the mix-config check. -/
def PartialDecryptionTransaction.get_ciphertext (store : Store)
    (election : ElectionTransaction) (self : PartialDecryptionTransaction) :
    Except ValidationError Ciphertext :=
  match self.upstream_id.transaction_type with
  | TransactionType.Vote =>
    if self.upstream_index ≠ 0 then .error .InvalidUpstreamIndex
    else
      match store.get_vote self.upstream_id with
      | none => .error (.TransactionNotFound self.upstream_id)
      | some vote => .ok vote.encrypted_vote
  | TransactionType.Mix =>
    match store.get_mix self.upstream_id with
    | none => .error (.TransactionNotFound self.upstream_id)
    | some mix =>
      -- Check mix config
      match election.mixnet with
      | some mix_config =>
        if mix_config.num_shuffles ≠ mix.mix_index then
          .error .WrongMixSelected
        else if mix.reencryption.length ≤ self.upstream_index then
          .error .InvalidUpstreamIndex
        else .ok (mix.reencryption.getD self.upstream_index default)
      | none => .error .InvalidUpstreamID
  | _ => .error .InvalidUpstreamID

/-- `PartialDecryptionTransaction::validate_tx` (decryption.rs), with the
source's early returns written as nested matches. -/
def PartialDecryptionTransaction.validate_tx (c : Crypto) (store : Store)
    (self : PartialDecryptionTransaction) :
    Except ValidationError Unit :=
  match store.get_election self.election_id with
  | none => .error (.TransactionNotFound self.election_id)
  | some election =>
    -- Make sure the trustee is correct
    match election.get_full_trustees.find?
      (fun t => t.id = self.trustee_id ∧
        t.public_key = self.trustee_public_key) with
    | none => .error (.TrusteeDoesNotExist self.trustee_id)
    | some trustee =>
      -- Check the ID
      if PartialDecryptionTransaction.build_id self.election_id
          self.upstream_id trustee.index ≠ self.id then
        .error .IdentifierBadComposition
      -- Make sure voting end exists
      else if (store.get_transaction
          (Identifier.new self.election_id TransactionType.VotingEnd
            (List.replicate 16 (0 : Byte)))).isNone then
        .error .MisingVotingEndTransaction
      else
        -- Get the ciphertext either from the vote or the mix
        match self.get_ciphertext store election with
        | .error e => .error e
        | .ok ciphertext =>
          -- Get the public key transaction for this trustee
          match store.get_keygen_public_key
            (Identifier.new self.election_id
              TransactionType.KeyGenPublicKey self.trustee_id) with
          | none => .error (.TransactionNotFound
              (Identifier.new self.election_id
                TransactionType.KeyGenPublicKey self.trustee_id))
          | some public_key =>
            -- Validate that the public_key transaction matches
            if self.trustee_id ≠ public_key.trustee_id ∨
                self.trustee_public_key ≠ public_key.trustee_public_key then
              .error (.TrusteePublicKeyMismatch self.trustee_id)
            -- Verify the partial decryption proof
            else if ¬ c.verify_share self.partial_decryption
                public_key.public_key_proof ciphertext then
              .error .PartialDecryptionProofFailed
            else .ok ()

/-- A `HashMap` collected from a keyed iterator: lookup of key `k` yields
the last element of the list whose key is `k` (later insertions of a
duplicate key overwrite earlier ones). -/
def map_by {α : Type} (l : List α) (key : α → Uuid) (k : Uuid) : Option α :=
  l.reverse.find? (fun x => key x = k)

/-- The ordered `add_share` calls issued by `decrypt_vote`: the
Election-declared trustee list is walked in order and a trustee present in
both maps contributes `(index, proof, share)`. -/
def shares_of (trustees : List Trustee)
    (pubkeys : List KeyGenPublicKeyTransaction)
    (partials : List PartialDecryptionTransaction) :
    List (Nat × KeygenProof × DecryptShare) :=
  trustees.filterMap (fun t =>
    match map_by partials (fun p => p.trustee_id) t.id,
          map_by pubkeys (fun p => p.trustee_id) t.id with
    | some part, some pubkey =>
        some (t.index.val, pubkey.public_key_proof, part.partial_decryption)
    | _, _ => none)

/-- `decrypt_vote` (decryption.rs): map pubkeys and partials by trustee
id, walk the declared trustee list adding the share of every trustee
present in both maps, then run the external combiner. -/
def decrypt_vote (c : Crypto) (encrypted_vote : Ciphertext)
    (trustees_threshold : Nat) (trustees : List Trustee)
    (pubkeys : List KeyGenPublicKeyTransaction)
    (partials : List PartialDecryptionTransaction) :
    Except ValidationError (List Byte) :=
  (c.finish trustees_threshold encrypted_vote
      (shares_of trustees pubkeys partials)).mapError
    (fun e => ValidationError.VoteDecryptionFailed e)

/-- The partial-gathering loop of `DecryptionTransaction::validate_tx`:
for each listed trustee id, resolve the trustee in the Election
(`TrusteeDoesNotExist` otherwise), rebuild the partial-decryption id and
fetch it from the store. -/
def gather_partials (store : Store) (election : ElectionTransaction)
    (election_id vote_id : Identifier) :
    List Uuid → Except ValidationError (List PartialDecryptionTransaction)
  | [] => .ok []
  | trustee_id :: rest =>
    match election.get_trustee trustee_id with
    | none => .error (.TrusteeDoesNotExist trustee_id)
    | some trustee =>
      match store.get_partial_decryption
        (PartialDecryptionTransaction.build_id election_id vote_id
          trustee.index) with
      | none => .error (.TransactionNotFound
          (PartialDecryptionTransaction.build_id election_id vote_id
            trustee.index))
      | some part =>
        match gather_partials store election election_id vote_id rest with
        | .error e => .error e
        | .ok more => .ok (part :: more)

/-- `DecryptionTransaction::validate_tx` (decryption.rs), with the
source's early returns written as nested matches.  The source's
`// TODO: Validate ID` is faithfully kept: no identifier check occurs. -/
def DecryptionTransaction.validate_tx (c : Crypto) (store : Store)
    (self : DecryptionTransaction) : Except ValidationError Unit :=
  match store.get_election self.election_id with
  | none => .error (.TransactionNotFound self.election_id)
  | some election =>
    if (store.get_transaction
        (Identifier.new self.election_id TransactionType.VotingEnd
          (List.replicate 16 (0 : Byte)))).isNone then
      .error .MisingVotingEndTransaction
    else
      match store.get_vote self.vote_id with
      | none => .error (.TransactionNotFound self.vote_id)
      | some vote =>
        -- Get all partial decryptions, one per listed trustee
        match gather_partials store election self.election_id
          self.vote_id self.trustees with
        | .error e => .error e
        | .ok partials =>
          -- Make sure we have enough shares
          if partials.length < election.trustees_threshold then
            .error (.NotEnoughShares election.trustees_threshold
              partials.length)
          else
            -- Decrypt the vote, with all the election's keygen pubkeys
            match decrypt_vote c vote.encrypted_vote
              election.trustees_threshold election.trustees
              (store.get_multiple_keygen_public_keys self.election_id)
              partials with
            | .error e => .error e
            | .ok decrypted =>
              if decrypted ≠ self.decrypted_vote then
                .error .VoteDecryptionMismatch
              else .ok ()

end Core

namespace Wire

/-- Errors of the `hex` crate's `decode` (spec §7 `BadHexEncoding`). -/
inductive HexError
  | InvalidHexCharacter
  | OddLength
deriving DecidableEq, Repr

/-- Lowercase hex digit of a value below 16 (`hex::encode`). -/
def toHexDigit (n : Nat) : Char :=
  if n < 10 then Char.ofNat (48 + n) else Char.ofNat (87 + n)

/-- `hex::encode`: each byte becomes two lowercase hex digits. -/
def hexEncode (l : List Byte) : List Char :=
  l.flatMap (fun b => [toHexDigit (b.val / 16), toHexDigit (b.val % 16)])

/-- Value of a hex digit; `none` on a non-hex character (`hex` accepts
both cases). -/
def fromHexDigit (c : Char) : Option Nat :=
  if 48 ≤ c.toNat ∧ c.toNat ≤ 57 then some (c.toNat - 48)
  else if 97 ≤ c.toNat ∧ c.toNat ≤ 102 then some (c.toNat - 87)
  else if 65 ≤ c.toNat ∧ c.toNat ≤ 70 then some (c.toNat - 55)
  else none

/-- Pair-wise hex decoding; the reduction modulo 256 is the byte width of
`16 * hi + lo` (always below 256 for genuine digits). -/
def hexDecodePairs : List Char → Except HexError (List Byte)
  | [] => .ok []
  | [_] => .error .OddLength
  | c1 :: c2 :: rest =>
    match fromHexDigit c1, fromHexDigit c2 with
    | some hi, some lo =>
        (hexDecodePairs rest).map
          (fun bs => (⟨(16 * hi + lo) % 256, Nat.mod_lt _ (by omega)⟩ : Byte) :: bs)
    | _, _ => .error .InvalidHexCharacter

/-- `hex::decode`: an odd-length input is rejected up front, then the
characters are consumed in pairs. -/
def hexDecode (s : List Char) : Except HexError (List Byte) :=
  if s.length % 2 ≠ 0 then .error .OddLength else hexDecodePairs s

/-- The wire-layer transaction-type enum of transaction.rs
(`#[repr(u8)]`: Election, Vote, Decryption). -/
inductive TransactionType
  | Election
  | Vote
  | Decryption
deriving DecidableEq, Repr

/-- `TransactionType as u8`. -/
def TransactionType.toByte : TransactionType → Byte
  | .Election => 0
  | .Vote => 1
  | .Decryption => 2

/-- `TransactionType::try_from_primitive`. -/
def TransactionType.fromByte : Byte → Option TransactionType
  | 0 => some .Election
  | 1 => some .Vote
  | 2 => some .Decryption
  | _ => none

/-- `TransactionIdentifier` (transaction.rs): `[u8; 15]` election id, a
type byte and a `[u8; 16]` unique id; the array lengths are carried as
side conditions where a theorem needs them. -/
structure TransactionIdentifier where
  election_id : List Byte
  transaction_type : TransactionType
  unique_id : List Byte
deriving DecidableEq, Repr

/-- Length well-formedness of the two byte arrays of an identifier. -/
def TransactionIdentifier.wf (id : TransactionIdentifier) : Prop :=
  id.election_id.length = 15 ∧ id.unique_id.length = 16

instance (id : TransactionIdentifier) : Decidable id.wf := by
  unfold TransactionIdentifier.wf; infer_instance

/-- `TransactionIdentifier::to_string`: the hex of the election id, the
type byte and the unique id, concatenated. -/
def TransactionIdentifier.toString (id : TransactionIdentifier) : List Char :=
  hexEncode id.election_id ++ hexEncode [id.transaction_type.toByte] ++
    hexEncode id.unique_id

/-- Outcome of `TransactionIdentifier::from_str`: success, a propagated
hex error, or a panic of one of the source's `unwrap`/slicing steps. -/
inductive ParseOutcome
  | ok (id : TransactionIdentifier)
  | err (e : HexError)
  | panicked
deriving DecidableEq, Repr

/-- `TransactionIdentifier::from_str` (transaction.rs).  After a
successful hex decode the source slices `bytes[0..15]` (panics when fewer
than 15 bytes), indexes `bytes[15]` (panics when fewer than 16),
`unwrap`s `try_from_primitive` (panics on a byte above 2) and `unwrap`s
`bytes[16..].try_into::<[u8; 16]>()` (panics unless exactly 32 bytes). -/
def TransactionIdentifier.fromStr (s : List Char) : ParseOutcome :=
  match hexDecode s with
  | .error e => .err e
  | .ok bytes =>
    if bytes.length < 16 then .panicked
    else
      match TransactionType.fromByte (bytes.getD 15 0) with
      | none => .panicked
      | some tt =>
        if bytes.length ≠ 32 then .panicked
        else .ok { election_id := bytes.take 15
                   transaction_type := tt
                   unique_id := bytes.drop 16 }

/-- The serde data model of canonical CBOR (spec §6), at the value level:
the byte codec around it is serde_cbor, an external crate whose
deterministic encoding is injective by the canonical-encoding contract,
so `pack`/`unpack` are modelled as the value produced/consumed. -/
inductive Cbor
  | int (n : Int)
  | bytes (b : List Byte)
  | text (s : List Char)
  | arr (l : List Cbor)
  | map (l : List (String × Cbor))
  | null

/-- Field lookup of a serde map: the first entry with the given name. -/
def Cbor.lookup (l : List (String × Cbor)) (k : String) : Option Cbor :=
  (l.find? (fun p => p.1 = k)).map (fun p => p.2)

/-- Modelled from the spec (§3): wire-layer trustee record
`\x7bid, index, public_key\x7d`. -/
structure Trustee where
  id : Uuid
  index : Byte
  public_key : List Byte
deriving DecidableEq, Repr

/-- Modelled from the spec (§3): wire-layer mix-net configuration. -/
structure MixConfig where
  num_shuffles : Nat
deriving DecidableEq, Repr

/-- Modelled from the spec (§3): the Election payload of the wire
`Transaction` enum; cryptographic members are opaque byte strings. -/
structure ElectionTransaction where
  id : TransactionIdentifier
  authority_public : List Byte
  ballots : List Uuid
  authenticators : List (List Byte)
  trustees : List Trustee
  trustees_threshold : Nat
  mixnet : Option MixConfig
deriving DecidableEq, Repr

/-- Modelled from the spec (§3): the Vote payload of the wire
`Transaction` enum; the ciphertext is an opaque byte string. -/
structure VoteTransaction where
  id : TransactionIdentifier
  election_id : TransactionIdentifier
  anonymous_key : List Byte
  ballot_id : Uuid
  authentication : List (List Byte)
  encrypted_vote : List Byte
deriving DecidableEq, Repr

/-- The Decryption payload of the wire `Transaction` enum, with the field
shape of `DecryptionTransaction` (decryption.rs): `decrypted_vote` is
serialized through `hex_serde` as a hex text. -/
structure DecryptionTransaction where
  id : TransactionIdentifier
  election_id : TransactionIdentifier
  vote_id : TransactionIdentifier
  trustees : List Uuid
  decrypted_vote : List Byte
deriving DecidableEq, Repr

/-- The tagged `Transaction` union of transaction.rs. -/
inductive Transaction
  | Election (tx : ElectionTransaction)
  | Vote (tx : VoteTransaction)
  | Decryption (tx : DecryptionTransaction)
deriving DecidableEq, Repr

/-- The custom `Serialize` of `TransactionIdentifier`: its hex string. -/
def encodeIdentifier (id : TransactionIdentifier) : Cbor :=
  .text id.toString

/-- serde encoding of an optional value: `null` or the value itself. -/
def encodeOption {α : Type} (f : α → Cbor) : Option α → Cbor
  | none => .null
  | some a => f a

/-- Derived serde encoding of a trustee record. -/
def encodeTrustee (t : Trustee) : Cbor :=
  .map [("id", .bytes t.id), ("index", .int t.index.val),
        ("public_key", .bytes t.public_key)]

/-- Derived serde encoding of the mix-net configuration. -/
def encodeMixConfig (m : MixConfig) : Cbor :=
  .map [("num_shuffles", .int m.num_shuffles)]

/-- Derived serde encoding of the Election payload fields. -/
def ElectionTransaction.encode (e : ElectionTransaction) :
    List (String × Cbor) :=
  [("id", encodeIdentifier e.id),
   ("authority_public", .bytes e.authority_public),
   ("ballots", .arr (e.ballots.map (fun b => .bytes b))),
   ("authenticators", .arr (e.authenticators.map (fun b => .bytes b))),
   ("trustees", .arr (e.trustees.map encodeTrustee)),
   ("trustees_threshold", .int e.trustees_threshold),
   ("mixnet", encodeOption encodeMixConfig e.mixnet)]

/-- Derived serde encoding of the Vote payload fields. -/
def VoteTransaction.encode (v : VoteTransaction) : List (String × Cbor) :=
  [("id", encodeIdentifier v.id),
   ("election_id", encodeIdentifier v.election_id),
   ("anonymous_key", .bytes v.anonymous_key),
   ("ballot_id", .bytes v.ballot_id),
   ("authentication", .arr (v.authentication.map (fun b => .bytes b))),
   ("encrypted_vote", .bytes v.encrypted_vote)]

/-- Derived serde encoding of the Decryption payload fields
(`decrypted_vote` through `hex_serde`). -/
def DecryptionTransaction.encode (d : DecryptionTransaction) :
    List (String × Cbor) :=
  [("id", encodeIdentifier d.id),
   ("election_id", encodeIdentifier d.election_id),
   ("vote_id", encodeIdentifier d.vote_id),
   ("trustees", .arr (d.trustees.map (fun b => .bytes b))),
   ("decrypted_vote", .text (hexEncode d.decrypted_vote))]

/-- `Transaction::pack` (transaction.rs): the canonical CBOR of the
internally tagged union — the payload map preceded by the snake_case
variant tag under the key `type`. -/
def Transaction.pack : Transaction → Cbor
  | .Election e => .map (("type", .text "election".toList) :: e.encode)
  | .Vote v => .map (("type", .text "vote".toList) :: v.encode)
  | .Decryption d => .map (("type", .text "decryption".toList) :: d.encode)

/-- The custom `Deserialize` of `TransactionIdentifier`: parse the hex
string; a hex error or a parse panic aborts the decode. -/
def decodeIdentifier : Cbor → Option TransactionIdentifier
  | .text s =>
    match TransactionIdentifier.fromStr s with
    | .ok id => some id
    | _ => none
  | _ => none

/-- Decode an opaque byte string. -/
def decodeBytes : Cbor → Option (List Byte)
  | .bytes b => some b
  | _ => none

/-- Decode a non-negative integer into a machine word. -/
def decodeNat : Cbor → Option Nat
  | .int n => if 0 ≤ n then some n.toNat else none
  | _ => none

/-- Decode a byte-sized integer. -/
def decodeByte : Cbor → Option Byte
  | .int n =>
    if h : 0 ≤ n ∧ n < 256 then
      some ⟨n.toNat, by omega⟩
    else none
  | _ => none

/-- Decode a hex text into bytes (`hex_serde`). -/
def decodeHexBytes : Cbor → Option (List Byte)
  | .text s =>
    match hexDecode s with
    | .ok b => some b
    | .error _ => none
  | _ => none

/-- Decode each element of a serde sequence. -/
def decodeList {α : Type} (f : Cbor → Option α) : List Cbor → Option (List α)
  | [] => some []
  | c :: rest => do
      let a ← f c
      let more ← decodeList f rest
      pure (a :: more)

/-- Decode a serde sequence value. -/
def decodeArr {α : Type} (f : Cbor → Option α) : Cbor → Option (List α)
  | .arr l => decodeList f l
  | _ => none

/-- Decode an optional value (`null` or the value itself). -/
def decodeOption {α : Type} (f : Cbor → Option α) : Cbor → Option (Option α)
  | .null => some none
  | c => (f c).map some

/-- Decode a trustee record. -/
def decodeTrustee : Cbor → Option Trustee
  | .map l => do
      let id ← Cbor.lookup l "id" >>= decodeBytes
      let index ← Cbor.lookup l "index" >>= decodeByte
      let public_key ← Cbor.lookup l "public_key" >>= decodeBytes
      pure { id, index, public_key }
  | _ => none

/-- Decode the mix-net configuration. -/
def decodeMixConfig : Cbor → Option MixConfig
  | .map l => do
      let num_shuffles ← Cbor.lookup l "num_shuffles" >>= decodeNat
      pure { num_shuffles }
  | _ => none

/-- Decode the Election payload fields. -/
def ElectionTransaction.decode (l : List (String × Cbor)) :
    Option ElectionTransaction := do
  let id ← Cbor.lookup l "id" >>= decodeIdentifier
  let authority_public ← Cbor.lookup l "authority_public" >>= decodeBytes
  let ballots ← Cbor.lookup l "ballots" >>= decodeArr decodeBytes
  let authenticators ← Cbor.lookup l "authenticators" >>= decodeArr decodeBytes
  let trustees ← Cbor.lookup l "trustees" >>= decodeArr decodeTrustee
  let trustees_threshold ← Cbor.lookup l "trustees_threshold" >>= decodeNat
  let mixnet ← Cbor.lookup l "mixnet" >>= decodeOption decodeMixConfig
  pure { id, authority_public, ballots, authenticators, trustees,
         trustees_threshold, mixnet }

/-- Decode the Vote payload fields. -/
def VoteTransaction.decode (l : List (String × Cbor)) :
    Option VoteTransaction := do
  let id ← Cbor.lookup l "id" >>= decodeIdentifier
  let election_id ← Cbor.lookup l "election_id" >>= decodeIdentifier
  let anonymous_key ← Cbor.lookup l "anonymous_key" >>= decodeBytes
  let ballot_id ← Cbor.lookup l "ballot_id" >>= decodeBytes
  let authentication ← Cbor.lookup l "authentication" >>= decodeArr decodeBytes
  let encrypted_vote ← Cbor.lookup l "encrypted_vote" >>= decodeBytes
  pure { id, election_id, anonymous_key, ballot_id, authentication,
         encrypted_vote }

/-- Decode the Decryption payload fields. -/
def DecryptionTransaction.decode (l : List (String × Cbor)) :
    Option DecryptionTransaction := do
  let id ← Cbor.lookup l "id" >>= decodeIdentifier
  let election_id ← Cbor.lookup l "election_id" >>= decodeIdentifier
  let vote_id ← Cbor.lookup l "vote_id" >>= decodeIdentifier
  let trustees ← Cbor.lookup l "trustees" >>= decodeArr decodeBytes
  let decrypted_vote ← Cbor.lookup l "decrypted_vote" >>= decodeHexBytes
  pure { id, election_id, vote_id, trustees, decrypted_vote }

/-- `Transaction::unpack` (transaction.rs): dispatch on the `type` tag of
the internally tagged union, then decode the payload fields; any
mismatch is a serde_cbor error, collapsed to `none`. -/
def Transaction.unpack : Cbor → Option Transaction
  | .map l => do
      let tag ← Cbor.lookup l "type"
      match tag with
      | .text s =>
        if s = "election".toList then
          (ElectionTransaction.decode l).map Transaction.Election
        else if s = "vote".toList then
          (VoteTransaction.decode l).map Transaction.Vote
        else if s = "decryption".toList then
          (DecryptionTransaction.decode l).map Transaction.Decryption
        else none
      | _ => none
  | _ => none

/-- Well-formedness of a wire transaction: every identifier field has
genuine `[u8; 15]`/`[u8; 16]` lengths. -/
def Transaction.wf : Transaction → Prop
  | .Election e => e.id.wf
  | .Vote v => v.id.wf ∧ v.election_id.wf
  | .Decryption d => d.id.wf ∧ d.election_id.wf ∧ d.vote_id.wf

end Wire

instance {ε α : Type} [DecidableEq ε] [DecidableEq α] :
    DecidableEq (Except ε α) := fun x y =>
  match x, y with
  | .ok a, .ok b =>
    if h : a = b then .isTrue (by rw [h])
    else .isFalse (fun hh => h (Except.ok.inj hh))
  | .error a, .error b =>
    if h : a = b then .isTrue (by rw [h])
    else .isFalse (fun hh => h (Except.error.inj hh))
  | .ok _, .error _ => .isFalse (fun hh => Except.noConfusion hh)
  | .error _, .ok _ => .isFalse (fun hh => Except.noConfusion hh)

namespace Core

/-! Concrete test vectors: a small election over which the validators are
evaluated on closed inputs. -/

/-- A concrete election identifier. -/
def exEid : Identifier :=
  ⟨List.replicate 15 1, .Election, List.replicate 16 2⟩

/-- The voting-end identifier of that election. -/
def exVotingEndId : Identifier :=
  Identifier.new exEid .VotingEnd (List.replicate 16 0)

/-- Trustee A's uuid. -/
def exIdA : Uuid := List.replicate 16 10

/-- Trustee B's uuid. -/
def exIdB : Uuid := List.replicate 16 11

/-- Trustee A, election index 1. -/
def exTrusteeA : Trustee := ⟨exIdA, 1, 100⟩

/-- Trustee B, election index 2. -/
def exTrusteeB : Trustee := ⟨exIdB, 2, 101⟩

/-- Trustee A's keygen public-key transaction. -/
def exPkA : KeyGenPublicKeyTransaction :=
  ⟨Identifier.new exEid .KeyGenPublicKey exIdA, exIdA, 100, 500⟩

/-- Trustee B's keygen public-key transaction. -/
def exPkB : KeyGenPublicKeyTransaction :=
  ⟨Identifier.new exEid .KeyGenPublicKey exIdB, exIdB, 101, 501⟩

/-- A crypto oracle whose proof checks pass and whose combiner yields the
plaintext `[42]` (realizable: a genuine quorum decrypts successfully). -/
def exCrypto : Crypto :=
  ⟨fun _ _ _ => true, fun _ _ _ => .ok [42]⟩

/-- A one-trustee election with a one-shuffle mixnet, threshold 1. -/
def exElectionMix : ElectionTransaction :=
  ⟨exEid, [exTrusteeA], 1, some ⟨1⟩⟩

/-- Identifier of the final mix (`mix_index = 0` of `num_shuffles = 1`). -/
def exMixFinalId : Identifier :=
  Identifier.new exEid .Mix (List.replicate 16 3)

/-- The final mix: `mix_index = num_shuffles − 1 = 0`. -/
def exMixFinal : MixTransaction := ⟨exMixFinalId, 0, [⟨5, 6⟩]⟩

/-- Identifier of a mix record carrying the out-of-range index. -/
def exMixOobId : Identifier :=
  Identifier.new exEid .Mix (List.replicate 16 4)

/-- A mix whose `mix_index = num_shuffles = 1`, outside the spec's
`[0, num_shuffles)` range. -/
def exMixOob : MixTransaction := ⟨exMixOobId, 1, [⟨5, 6⟩]⟩

/-- Trustee A's partial decryption of the final mix's ciphertext. -/
def exPartialFinal : PartialDecryptionTransaction :=
  ⟨PartialDecryptionTransaction.build_id exEid exMixFinalId 1, exEid,
    exMixFinalId, 0, exIdA, 100, 7⟩

/-- Trustee A's partial decryption of the out-of-range mix's ciphertext. -/
def exPartialOob : PartialDecryptionTransaction :=
  ⟨PartialDecryptionTransaction.build_id exEid exMixOobId 1, exEid,
    exMixOobId, 0, exIdA, 100, 7⟩

/-- Store holding the mixnet election, its voting end, both mixes and
trustee A's keygen key. -/
def exStoreMix : Store where
  get_election i := if i = exEid then some exElectionMix else none
  get_transaction i := if i = exVotingEndId then some .VotingEnd else none
  get_vote _ := none
  get_mix i :=
    if i = exMixFinalId then some exMixFinal
    else if i = exMixOobId then some exMixOob else none
  get_keygen_public_key i := if i = exPkA.id then some exPkA else none
  get_partial_decryption _ := none
  get_multiple_keygen_public_keys _ := [exPkA]

/-- A mixnet-free one-trustee election with threshold 1. -/
def exElection1 : ElectionTransaction := ⟨exEid, [exTrusteeA], 1, none⟩

/-- A two-trustee election with threshold 2. -/
def exElection2 : ElectionTransaction :=
  ⟨exEid, [exTrusteeA, exTrusteeB], 2, none⟩

/-- A concrete vote identifier. -/
def exVoteId : Identifier :=
  Identifier.new exEid .Vote (List.replicate 16 5)

/-- The concrete vote. -/
def exVote : VoteTransaction := ⟨exVoteId, 0, ⟨5, 6⟩⟩

/-- Trustee A's partial decryption of the vote. -/
def exPartialA : PartialDecryptionTransaction :=
  ⟨PartialDecryptionTransaction.build_id exEid exVoteId 1, exEid,
    exVoteId, 0, exIdA, 100, 7⟩

/-- Trustee B's partial decryption of the vote. -/
def exPartialB : PartialDecryptionTransaction :=
  ⟨PartialDecryptionTransaction.build_id exEid exVoteId 2, exEid,
    exVoteId, 0, exIdB, 101, 8⟩

/-- Store for the threshold-1 election: voting end, the vote, trustee A's
keygen key and partial decryption. -/
def exStore1 : Store where
  get_election i := if i = exEid then some exElection1 else none
  get_transaction i := if i = exVotingEndId then some .VotingEnd else none
  get_vote i := if i = exVoteId then some exVote else none
  get_mix _ := none
  get_keygen_public_key i := if i = exPkA.id then some exPkA else none
  get_partial_decryption i :=
    if i = exPartialA.id then some exPartialA else none
  get_multiple_keygen_public_keys _ := [exPkA]

/-- Store for the threshold-2 election: voting end, the vote, both
trustees' keygen keys and partial decryptions. -/
def exStore2 : Store where
  get_election i := if i = exEid then some exElection2 else none
  get_transaction i := if i = exVotingEndId then some .VotingEnd else none
  get_vote i := if i = exVoteId then some exVote else none
  get_mix _ := none
  get_keygen_public_key i :=
    if i = exPkA.id then some exPkA
    else if i = exPkB.id then some exPkB else none
  get_partial_decryption i :=
    if i = exPartialA.id then some exPartialA
    else if i = exPartialB.id then some exPartialB else none
  get_multiple_keygen_public_keys _ := [exPkA, exPkB]

/-- A Decryption transaction whose stored id's unique part is garbage
(all 9s) instead of the first 16 bytes of the vote id's encoding. -/
def exBadIdDecryption : DecryptionTransaction :=
  ⟨⟨List.replicate 15 1, .Decryption, List.replicate 16 9⟩, exEid,
    exVoteId, [exIdA], [42]⟩

/-- A Decryption listing trustee A twice: `[A, A, B]`. -/
def exDupDecryption : DecryptionTransaction :=
  ⟨Identifier.new exEid .Decryption exVoteId.to_bytes, exEid, exVoteId,
    [exIdA, exIdA, exIdB], [42]⟩

/-- A Decryption listing only trustee A under threshold 2. -/
def exShortDecryption : DecryptionTransaction :=
  ⟨Identifier.new exEid .Decryption exVoteId.to_bytes, exEid, exVoteId,
    [exIdA], [42]⟩

/-- Trustee A's partial decryption record with a different share value
(same trustee id as `exPartialA`). -/
def exPartialA' : PartialDecryptionTransaction :=
  ⟨PartialDecryptionTransaction.build_id exEid exVoteId 1, exEid,
    exVoteId, 0, exIdA, 100, 8⟩

/-- A combiner that distinguishes which share value was added for
trustee A (share 7 yields `[1]`, anything else `[2]`). -/
def exShareCrypto : Crypto :=
  ⟨fun _ _ _ => true,
   fun _ _ shares => if shares = [(1, 500, 7)] then .ok [1] else .ok [2]⟩

/-- A crypto oracle whose combiner fails. -/
def exFailCrypto : Crypto :=
  ⟨fun _ _ _ => true, fun _ _ _ => .error 3⟩

end Core

namespace Wire

theorem fromHexDigit_toHexDigit (n : Nat) (h : n < 16) :
    fromHexDigit (toHexDigit n) = some n := by
  interval_cases n <;> decide

theorem hexEncode_length (l : List Byte) :
    (hexEncode l).length = 2 * l.length := by
  induction l with
  | nil => rfl
  | cons b l ih => simp [hexEncode, List.flatMap_cons] at ih ⊢; omega

theorem hexEncode_cons (b : Byte) (l : List Byte) :
    hexEncode (b :: l)
      = toHexDigit (b.val / 16) :: toHexDigit (b.val % 16) :: hexEncode l := by
  simp [hexEncode]

theorem hexDecodePairs_hexEncode (l : List Byte) :
    hexDecodePairs (hexEncode l) = .ok l := by
  induction l with
  | nil => rfl
  | cons b l ih =>
    have hd : b.val / 16 < 16 := by omega
    have hm : b.val % 16 < 16 := by omega
    have hb : (16 * (b.val / 16) + b.val % 16) % 256 = b.val := by omega
    rw [hexEncode_cons]
    simp only [hexDecodePairs, fromHexDigit_toHexDigit _ hd,
      fromHexDigit_toHexDigit _ hm, ih]
    simp [Except.map, Fin.ext_iff, hb]

theorem hexDecode_hexEncode (l : List Byte) :
    hexDecode (hexEncode l) = .ok l := by
  rw [hexDecode, if_neg (by simp [hexEncode_length])]
  exact hexDecodePairs_hexEncode l

theorem hexEncode_append (l1 l2 : List Byte) :
    hexEncode (l1 ++ l2) = hexEncode l1 ++ hexEncode l2 := by
  simp [hexEncode]

theorem toString_flat (id : TransactionIdentifier) :
    id.toString
      = hexEncode (id.election_id ++
          id.transaction_type.toByte :: id.unique_id) := by
  rw [show id.election_id ++ id.transaction_type.toByte :: id.unique_id
      = id.election_id ++ [id.transaction_type.toByte] ++ id.unique_id by simp]
  rw [hexEncode_append, hexEncode_append]
  rfl

theorem TransactionType.fromByte_toByte (tt : TransactionType) :
    TransactionType.fromByte tt.toByte = some tt := by
  cases tt <;> rfl

theorem fromStr_toString (id : TransactionIdentifier) (h : id.wf) :
    TransactionIdentifier.fromStr id.toString = .ok id := by
  obtain ⟨e, tt, u⟩ := id
  obtain ⟨he, hu⟩ := h
  simp only [TransactionIdentifier.wf] at he hu
  have hflat : TransactionIdentifier.toString ⟨e, tt, u⟩
      = hexEncode (e ++ tt.toByte :: u) := toString_flat _
  have hlen : (e ++ tt.toByte :: u).length = 32 := by simp [he, hu]
  have hgd : (e ++ tt.toByte :: u).getD 15 0 = tt.toByte := by
    rw [List.getD_eq_getElem?_getD, List.getElem?_append_right (by omega)]
    simp [he]
  have htake : (e ++ tt.toByte :: u).take 15 = e := List.take_left' he
  have hdrop : (e ++ tt.toByte :: u).drop 16 = u := by
    rw [show e ++ tt.toByte :: u = (e ++ [tt.toByte]) ++ u by simp]
    exact List.drop_left' (by simp [he])
  simp only [TransactionIdentifier.fromStr, hflat, hexDecode_hexEncode,
    hgd, TransactionType.fromByte_toByte, hlen, htake, hdrop]
  simp

theorem decodeIdentifier_encode (id : TransactionIdentifier) (h : id.wf) :
    decodeIdentifier (encodeIdentifier id) = some id := by
  simp [encodeIdentifier, decodeIdentifier, fromStr_toString id h]

theorem decodeByte_int (b : Byte) : decodeByte (.int b.val) = some b := by
  have h : (0 : Int) ≤ (b.val : Int) ∧ ((b.val : Int)) < 256 :=
    ⟨Int.ofNat_nonneg _, by exact_mod_cast b.isLt⟩
  simp [decodeByte, dif_pos h]

theorem decodeNat_int (n : Nat) : decodeNat (.int n) = some n := by
  simp [decodeNat]

theorem decodeTrustee_encode (t : Trustee) :
    decodeTrustee (encodeTrustee t) = some t := by
  simp [encodeTrustee, decodeTrustee, Cbor.lookup, decodeBytes,
    decodeByte_int]

theorem decodeMixConfig_encode (m : MixConfig) :
    decodeMixConfig (encodeMixConfig m) = some m := by
  simp [encodeMixConfig, decodeMixConfig, Cbor.lookup, decodeNat_int]

theorem decodeOption_mixConfig (o : Option MixConfig) :
    decodeOption decodeMixConfig (encodeOption encodeMixConfig o)
      = some o := by
  cases o with
  | none => rfl
  | some m =>
    simp only [encodeOption, encodeMixConfig, decodeOption]
    have := decodeMixConfig_encode m
    simp only [encodeMixConfig] at this
    simp [this]

theorem decodeList_map {α : Type} (f : Cbor → Option α) (enc : α → Cbor)
    (l : List α) (h : ∀ a ∈ l, f (enc a) = some a) :
    decodeList f (l.map enc) = some l := by
  induction l with
  | nil => rfl
  | cons a l ih =>
    simp only [List.map_cons, decodeList, h a (by simp),
      ih (fun x hx => h x (by simp [hx]))]
    rfl

theorem decodeArr_map {α : Type} (f : Cbor → Option α) (enc : α → Cbor)
    (l : List α) (h : ∀ a ∈ l, f (enc a) = some a) :
    decodeArr f (.arr (l.map enc)) = some l := by
  simp [decodeArr, decodeList_map f enc l h]

theorem decodeHexBytes_encode (b : List Byte) :
    decodeHexBytes (.text (hexEncode b)) = some b := by
  simp [decodeHexBytes, hexDecode_hexEncode]

theorem decodeIdentifier_text (id : TransactionIdentifier) (h : id.wf) :
    decodeIdentifier (.text id.toString) = some id := by
  simp [decodeIdentifier, fromStr_toString id h]

theorem ElectionTransaction_decode_encode (tag : Cbor)
    (e : ElectionTransaction) (h : e.id.wf) :
    ElectionTransaction.decode (("type", tag) :: e.encode) = some e := by
  have hid := decodeIdentifier_text e.id h
  have hb := decodeArr_map decodeBytes (fun b => .bytes b) e.ballots
    (fun a _ => rfl)
  have ha := decodeArr_map decodeBytes (fun b => .bytes b) e.authenticators
    (fun a _ => rfl)
  have ht := decodeArr_map decodeTrustee encodeTrustee e.trustees
    (fun a _ => decodeTrustee_encode a)
  have hm := decodeOption_mixConfig e.mixnet
  simp [ElectionTransaction.decode, ElectionTransaction.encode, Cbor.lookup,
    encodeIdentifier, hid, hb, ha, ht, hm, decodeBytes, decodeNat_int]

theorem VoteTransaction_decode_encode (tag : Cbor) (v : VoteTransaction)
    (h1 : v.id.wf) (h2 : v.election_id.wf) :
    VoteTransaction.decode (("type", tag) :: v.encode) = some v := by
  have hid := decodeIdentifier_text v.id h1
  have hel := decodeIdentifier_text v.election_id h2
  have ha := decodeArr_map decodeBytes (fun b => .bytes b) v.authentication
    (fun a _ => rfl)
  simp [VoteTransaction.decode, VoteTransaction.encode, Cbor.lookup,
    encodeIdentifier, hid, hel, ha, decodeBytes]

theorem DecryptionTransaction_decode_encode (tag : Cbor)
    (d : DecryptionTransaction) (h1 : d.id.wf) (h2 : d.election_id.wf)
    (h3 : d.vote_id.wf) :
    DecryptionTransaction.decode (("type", tag) :: d.encode) = some d := by
  have hid := decodeIdentifier_text d.id h1
  have hel := decodeIdentifier_text d.election_id h2
  have hv := decodeIdentifier_text d.vote_id h3
  have ht := decodeArr_map decodeBytes (fun b => .bytes b) d.trustees
    (fun a _ => rfl)
  simp [DecryptionTransaction.decode, DecryptionTransaction.encode,
    Cbor.lookup, encodeIdentifier, hid, hel, hv, ht, decodeBytes,
    decodeHexBytes_encode]

theorem unpack_pack (t : Transaction) (h : t.wf) :
    Transaction.unpack t.pack = some t := by
  cases t with
  | Election e =>
    have hd := ElectionTransaction_decode_encode
      (.text "election".toList) e h
    simp [Transaction.pack, Transaction.unpack, Cbor.lookup]
    simpa using hd
  | Vote v =>
    have hd := VoteTransaction_decode_encode
      (.text "vote".toList) v h.1 h.2
    simp [Transaction.pack, Transaction.unpack, Cbor.lookup]
    simpa using hd
  | Decryption d =>
    have hd := DecryptionTransaction_decode_encode
      (.text "decryption".toList) d h.1 h.2.1 h.2.2
    simp [Transaction.pack, Transaction.unpack, Cbor.lookup]
    simpa using hd

end Wire

namespace Core

theorem gather_partials_length (store : Store) (e : ElectionTransaction)
    (a b : Identifier) (l : List Uuid)
    (ps : List PartialDecryptionTransaction)
    (h : gather_partials store e a b l = .ok ps) :
    ps.length = l.length := by
  induction l generalizing ps with
  | nil =>
    rw [gather_partials] at h
    cases h
    rfl
  | cons tid rest ih =>
    rw [gather_partials] at h
    split at h
    · cases h
    · split at h
      · cases h
      · split at h
        · cases h
        · next more hmore =>
          cases h
          simp [ih more hmore]

theorem gather_partials_mem (store : Store) (e : ElectionTransaction)
    (a b : Identifier) (l : List Uuid)
    (ps : List PartialDecryptionTransaction)
    (h : gather_partials store e a b l = .ok ps) :
    ∀ tid ∈ l, ∃ t, e.get_trustee tid = some t ∧
      (store.get_partial_decryption
        (PartialDecryptionTransaction.build_id a b t.index)).isSome := by
  induction l generalizing ps with
  | nil => intro tid htid; cases htid
  | cons tid0 rest ih =>
    rw [gather_partials] at h
    split at h
    · cases h
    · next t ht =>
      split at h
      · cases h
      · next part hpart =>
        split at h
        · cases h
        · next more hmore =>
          intro tid htid
          rcases List.mem_cons.mp htid with rfl | hmem
          · exact ⟨t, ht, by rw [hpart]; rfl⟩
          · exact ih more hmore tid hmem

theorem decryption_validate_ok_parts (c : Crypto) (store : Store)
    (tx : DecryptionTransaction) (h : tx.validate_tx c store = .ok ()) :
    ∃ e ps, store.get_election tx.election_id = some e ∧
      gather_partials store e tx.election_id tx.vote_id tx.trustees
        = .ok ps ∧
      e.trustees_threshold ≤ ps.length := by
  rw [DecryptionTransaction.validate_tx] at h
  split at h
  · cases h
  · next e he =>
    split at h
    · cases h
    · split at h
      · cases h
      · next v hv =>
        split at h
        · cases h
        · next ps hps =>
          split at h
          · cases h
          · next hlen => exact ⟨e, ps, he, hps, by omega⟩

end Core

namespace Core

/-- C1: the spec requires a PartialDecryption referencing a Mix to be
accepted exactly when the mix is final (`mix_index = num_shuffles − 1`,
here `0` of `1`), with `WrongMixSelected` otherwise.  The source instead
compares `mix_index` against `num_shuffles` itself
(`num_shuffles != mix.mix_index`, decryption.rs line 128): on a concrete
one-shuffle election the final mix (`mix_index = 0`) is rejected with
`WrongMixSelected`, while a mix carrying `mix_index = 1 = num_shuffles` —
outside the spec's `[0, num_shuffles)` range — passes the check and
validates. -/
theorem mix_selection_off_by_one :
    exElectionMix.mixnet = some ⟨1⟩ ∧
    exMixFinal.mix_index = 0 ∧
    exPartialFinal.validate_tx exCrypto exStoreMix
      = .error .WrongMixSelected ∧
    exMixOob.mix_index = 1 ∧
    exPartialOob.validate_tx exCrypto exStoreMix = .ok () :=
  ⟨rfl, rfl, rfl, rfl, rfl⟩

/-- C2 counterexample: a Decryption listing trustee A twice (`[A, A, B]`,
threshold 2) is accepted by `validate_tx` even though its trustee ids are
not distinct, refuting the claim that validation requires distinct ids. -/
theorem duplicate_trustees_accepted :
    exDupDecryption.validate_tx exCrypto exStore2 = .ok () ∧
    ¬ exDupDecryption.trustees.Nodup :=
  ⟨rfl, by decide⟩

/-- C2 amended: `DecryptionTransaction::validate_tx` succeeds only if the
trustees list is at least threshold-long and every listed trustee is
declared in the Election and has a stored (hence already-validated,
spec §4.2) PartialDecryption for this vote, rebuilt by id; distinctness
of the listed ids is not required. -/
theorem decryption_validation_requirements (c : Crypto) (store : Store)
    (tx : DecryptionTransaction) (h : tx.validate_tx c store = .ok ()) :
    ∃ e, store.get_election tx.election_id = some e ∧
      e.trustees_threshold ≤ tx.trustees.length ∧
      ∀ tid ∈ tx.trustees, ∃ t, e.get_trustee tid = some t ∧
        (store.get_partial_decryption
          (PartialDecryptionTransaction.build_id tx.election_id tx.vote_id
            t.index)).isSome := by
  obtain ⟨e, ps, he, hps, hth⟩ := decryption_validate_ok_parts c store tx h
  have hlen := gather_partials_length store e tx.election_id tx.vote_id
    tx.trustees ps hps
  exact ⟨e, he, by omega,
    gather_partials_mem store e tx.election_id tx.vote_id tx.trustees ps hps⟩

/-- C2 witness: the requirements extracted from the accepted duplicate
Decryption of the concrete store. -/
theorem decryption_validation_requirements_witness :
    ∃ e, exStore2.get_election exDupDecryption.election_id = some e ∧
      e.trustees_threshold ≤ exDupDecryption.trustees.length ∧
      ∀ tid ∈ exDupDecryption.trustees, ∃ t, e.get_trustee tid = some t ∧
        (exStore2.get_partial_decryption
          (PartialDecryptionTransaction.build_id exDupDecryption.election_id
            exDupDecryption.vote_id t.index)).isSome :=
  decryption_validation_requirements exCrypto exStore2 exDupDecryption rfl

/-- C3: the source's `DecryptionTransaction::validate_tx` carries
`// TODO: Validate ID` and performs no identifier check: a Decryption
whose stored id differs from
`Identifier(election, Decryption, vote_id.to_bytes()[0..16])` is accepted
on a store where everything else is in order, contradicting the claim
that such a transaction is rejected. -/
theorem decryption_id_not_validated :
    exBadIdDecryption.validate_tx exCrypto exStore1 = .ok () ∧
    exBadIdDecryption.id ≠ Identifier.new exBadIdDecryption.election_id
      TransactionType.Decryption exBadIdDecryption.vote_id.to_bytes :=
  ⟨rfl, by decide⟩

end Core

namespace Wire

/-- C4: identifier parsing is not total on wrong-length input.  The spec
requires every input that is non-hex or of length ≠ 64 to be rejected
with an error; non-hex and odd-length inputs are (the `hex::decode`
step), but the even-length hex string `"00"` of length 2 ≠ 64 drives
`from_str` into the `bytes[0..15]` slice of a 1-byte buffer, a panic
(modelled as the `panicked` outcome) instead of a returned error. -/
theorem fromStr_panics_on_short_even_hex :
    TransactionIdentifier.fromStr "00".toList = ParseOutcome.panicked ∧
    "00".toList.length ≠ 64 ∧
    "00".toList.all (fun ch => (fromHexDigit ch).isSome) = true := by
  refine ⟨rfl, by decide, by decide⟩

/-- C5: round-trip of serialization — parsing the rendered 64-hex string
of any (well-formed) identifier returns that identifier, and unpacking
the packed canonical encoding of any (well-formed) transaction returns an
equal transaction. -/
theorem serialization_roundtrip :
    (∀ id : TransactionIdentifier, id.wf →
      TransactionIdentifier.fromStr id.toString = ParseOutcome.ok id) ∧
    (∀ t : Transaction, t.wf → Transaction.unpack t.pack = some t) :=
  ⟨fromStr_toString, unpack_pack⟩

/-- C5 witness: the round trip evaluated on a concrete well-formed
identifier and a concrete Decryption transaction. -/
theorem serialization_roundtrip_witness :
    TransactionIdentifier.fromStr
        (TransactionIdentifier.toString
          ⟨List.replicate 15 7, .Vote, List.replicate 16 8⟩)
      = ParseOutcome.ok ⟨List.replicate 15 7, .Vote, List.replicate 16 8⟩ ∧
    Transaction.unpack
        (Transaction.pack (.Decryption
          ⟨⟨List.replicate 15 7, .Decryption, List.replicate 16 8⟩,
           ⟨List.replicate 15 7, .Election, List.replicate 16 9⟩,
           ⟨List.replicate 15 7, .Vote, List.replicate 16 8⟩,
           [List.replicate 16 10], [42]⟩))
      = some (.Decryption
          ⟨⟨List.replicate 15 7, .Decryption, List.replicate 16 8⟩,
           ⟨List.replicate 15 7, .Election, List.replicate 16 9⟩,
           ⟨List.replicate 15 7, .Vote, List.replicate 16 8⟩,
           [List.replicate 16 10], [42]⟩) :=
  ⟨serialization_roundtrip.1 _ (by decide),
   serialization_roundtrip.2 _ ⟨by decide, by decide, by decide⟩⟩

end Wire

namespace Core

/-- C6: identifier coherence of PartialDecryption.  For the trustee
resolved by the validator, the rebuilt id lays out one byte of the
upstream transaction type, the first 14 bytes of the upstream unique id
and one byte of the trustee's Election-declared index; an accepted
transaction stores exactly that id, and a differing stored id is rejected
with `IdentifierBadComposition`. -/
theorem partial_decryption_id_coherence (c : Crypto) (store : Store)
    (tx : PartialDecryptionTransaction) (e : ElectionTransaction)
    (t : Trustee)
    (he : store.get_election tx.election_id = some e)
    (ht : e.get_full_trustees.find?
      (fun t => t.id = tx.trustee_id ∧
        t.public_key = tx.trustee_public_key) = some t)
    (hu : tx.upstream_id.unique_id.length = 16) :
    (PartialDecryptionTransaction.build_id tx.election_id tx.upstream_id
        t.index).unique_id
      = tx.upstream_id.transaction_type.toByte ::
          (tx.upstream_id.unique_id.take 14 ++ [t.index]) ∧
    (tx.validate_tx c store = .ok () →
      tx.id = PartialDecryptionTransaction.build_id tx.election_id
        tx.upstream_id t.index) ∧
    (tx.id ≠ PartialDecryptionTransaction.build_id tx.election_id
        tx.upstream_id t.index →
      tx.validate_tx c store = .error .IdentifierBadComposition) := by
  refine ⟨?_, ?_, ?_⟩
  · simp only [PartialDecryptionTransaction.build_id, Identifier.new]
    apply List.take_of_length_le
    simp [hu]
  · intro h
    simp only [PartialDecryptionTransaction.validate_tx, he, ht] at h
    by_cases hid : PartialDecryptionTransaction.build_id tx.election_id
      tx.upstream_id t.index = tx.id
    · exact hid.symm
    · rw [if_pos hid] at h
      cases h
  · intro hne
    simp only [PartialDecryptionTransaction.validate_tx, he, ht]
    rw [if_pos (Ne.symm hne)]

/-- C6 witness: the coherence theorem instantiated on the concrete
mixnet-free election and trustee A's partial decryption of the vote. -/
theorem partial_decryption_id_coherence_witness :
    (PartialDecryptionTransaction.build_id exPartialA.election_id
        exPartialA.upstream_id exTrusteeA.index).unique_id
      = exPartialA.upstream_id.transaction_type.toByte ::
          (exPartialA.upstream_id.unique_id.take 14 ++ [exTrusteeA.index]) ∧
    (exPartialA.validate_tx exCrypto exStore1 = .ok () →
      exPartialA.id = PartialDecryptionTransaction.build_id
        exPartialA.election_id exPartialA.upstream_id exTrusteeA.index) ∧
    (exPartialA.id ≠ PartialDecryptionTransaction.build_id
        exPartialA.election_id exPartialA.upstream_id exTrusteeA.index →
      exPartialA.validate_tx exCrypto exStore1
        = .error .IdentifierBadComposition) :=
  partial_decryption_id_coherence exCrypto exStore1 exPartialA exElection1
    exTrusteeA rfl rfl (by decide)

/-- C7: on any store that has no VotingEnd transaction for the election,
neither a PartialDecryption nor a Decryption of that election ever
validates: `validate_tx` returns an error on every such transaction. -/
theorem no_voting_end_never_ok (c : Crypto) (store : Store)
    (eid : Identifier)
    (h : store.get_transaction
      (Identifier.new eid TransactionType.VotingEnd
        (List.replicate 16 (0 : Byte))) = none) :
    (∀ tx : PartialDecryptionTransaction, tx.election_id = eid →
      tx.validate_tx c store ≠ .ok ()) ∧
    (∀ tx : DecryptionTransaction, tx.election_id = eid →
      tx.validate_tx c store ≠ .ok ()) := by
  constructor
  · intro tx heq hok
    subst heq
    rw [PartialDecryptionTransaction.validate_tx] at hok
    split at hok
    · cases hok
    · split at hok
      · cases hok
      · split at hok
        · cases hok
        · split at hok
          · cases hok
          · next hcond => exact hcond (by rw [h]; rfl)
  · intro tx heq hok
    subst heq
    rw [DecryptionTransaction.validate_tx] at hok
    split at hok
    · cases hok
    · split at hok
      · cases hok
      · next hcond => exact hcond (by rw [h]; rfl)

/-- C7 witness: on the empty store no partial decryption or decryption of
the concrete election validates. -/
theorem no_voting_end_never_ok_witness :
    exPartialA.validate_tx exCrypto
        ⟨fun _ => none, fun _ => none, fun _ => none, fun _ => none,
         fun _ => none, fun _ => none, fun _ => []⟩ ≠ .ok () ∧
    exShortDecryption.validate_tx exCrypto
        ⟨fun _ => none, fun _ => none, fun _ => none, fun _ => none,
         fun _ => none, fun _ => none, fun _ => []⟩ ≠ .ok () :=
  ⟨(no_voting_end_never_ok exCrypto _ exEid rfl).1 exPartialA rfl,
   (no_voting_end_never_ok exCrypto _ exEid rfl).2 exShortDecryption rfl⟩

/-- C8: a Decryption whose trustees list is shorter than the threshold,
each listed trustee resolving in the Election with its partial decryption
gathered from the store, fails with `NotEnoughShares(required, got)`
where `required` is the Election's threshold and `got` the number of
gathered shares (one per listed trustee). -/
theorem below_threshold_not_enough_shares (c : Crypto) (store : Store)
    (tx : DecryptionTransaction) (e : ElectionTransaction)
    (v : VoteTransaction) (ps : List PartialDecryptionTransaction)
    (he : store.get_election tx.election_id = some e)
    (hve : (store.get_transaction
      (Identifier.new tx.election_id TransactionType.VotingEnd
        (List.replicate 16 (0 : Byte)))).isNone = false)
    (hv : store.get_vote tx.vote_id = some v)
    (hg : gather_partials store e tx.election_id tx.vote_id tx.trustees
      = .ok ps)
    (hlt : tx.trustees.length < e.trustees_threshold) :
    tx.validate_tx c store
      = .error (.NotEnoughShares e.trustees_threshold
          tx.trustees.length) := by
  have hlen := gather_partials_length store e tx.election_id tx.vote_id
    tx.trustees ps hg
  simp only [DecryptionTransaction.validate_tx, he, hve, hv, hg,
    Bool.false_eq_true, if_false]
  rw [if_pos (by omega)]
  rw [hlen]

/-- C8 witness: threshold 2 with the single listed trustee A yields
`NotEnoughShares(2, 1)`. -/
theorem below_threshold_not_enough_shares_witness :
    exShortDecryption.validate_tx exCrypto exStore2
      = .error (.NotEnoughShares 2 1) :=
  below_threshold_not_enough_shares exCrypto exStore2 exShortDecryption
    exElection2 exVote [exPartialA] rfl rfl rfl rfl (by decide)

end Core

namespace Core

theorem map_by_eq_some_iff {α : Type} (l : List α) (key : α → Uuid)
    (k : Uuid) (hn : (l.map key).Nodup) (x : α) :
    map_by l key k = some x ↔ x ∈ l ∧ key x = k := by
  constructor
  · intro h
    have hm : x ∈ l.reverse := List.mem_of_find?_eq_some h
    have hp := List.find?_some h
    simp only [decide_eq_true_eq] at hp
    exact ⟨List.mem_reverse.mp hm, hp⟩
  · rintro ⟨hx, hk⟩
    cases hfind : map_by l key k with
    | none =>
      rw [map_by, List.find?_eq_none] at hfind
      have := hfind x (List.mem_reverse.mpr hx)
      simp only [decide_eq_true_eq] at this
      exact absurd hk this
    | some y =>
      have hy : y ∈ l := List.mem_reverse.mp (List.mem_of_find?_eq_some hfind)
      have hky := List.find?_some hfind
      simp only [decide_eq_true_eq] at hky
      have hxy : x = y :=
        List.inj_on_of_nodup_map hn hx hy (by rw [hk, hky])
      rw [hxy]

theorem map_by_perm {α : Type} (l l' : List α) (key : α → Uuid)
    (h : l.Perm l') (hn : (l.map key).Nodup) (k : Uuid) :
    map_by l key k = map_by l' key k := by
  have hn' : (l'.map key).Nodup := (h.map key).nodup_iff.mp hn
  cases hx : map_by l key k with
  | some x =>
    have hc := (map_by_eq_some_iff l key k hn x).mp hx
    exact ((map_by_eq_some_iff l' key k hn' x).mpr
      ⟨h.mem_iff.mp hc.1, hc.2⟩).symm
  | none =>
    cases hy : map_by l' key k with
    | none => rfl
    | some y =>
      have hc := (map_by_eq_some_iff l' key k hn' y).mp hy
      have : map_by l key k = some y :=
        (map_by_eq_some_iff l key k hn y).mpr ⟨h.mem_iff.mpr hc.1, hc.2⟩
      rw [hx] at this
      cases this

theorem shares_of_perm (trustees : List Trustee)
    (pk pk' : List KeyGenPublicKeyTransaction)
    (pl pl' : List PartialDecryptionTransaction)
    (hpk : pk.Perm pk') (hpl : pl.Perm pl')
    (hnpk : (pk.map (fun x => x.trustee_id)).Nodup)
    (hnpl : (pl.map (fun x => x.trustee_id)).Nodup) :
    shares_of trustees pk pl = shares_of trustees pk' pl' := by
  induction trustees with
  | nil => rfl
  | cons t ts ih =>
    simp only [shares_of, List.filterMap_cons] at ih ⊢
    rw [map_by_perm pl pl' (fun p => p.trustee_id) hpl hnpl t.id,
      map_by_perm pk pk' (fun p => p.trustee_id) hpk hnpk t.id, ih]

/-- C9 counterexample: `decrypt_vote` is not invariant under permuting
the partials slice when it contains two records for the same trustee id
(the `HashMap` keeps the last insertion, so which record wins depends on
slice order): with a combiner that distinguishes the added share value,
the two orders produce different results. -/
theorem decrypt_vote_order_dependent_on_duplicates :
    [exPartialA, exPartialA'].Perm [exPartialA', exPartialA] ∧
    decrypt_vote exShareCrypto ⟨5, 6⟩ 1 [exTrusteeA] [exPkA]
        [exPartialA, exPartialA']
      ≠ decrypt_vote exShareCrypto ⟨5, 6⟩ 1 [exTrusteeA] [exPkA]
        [exPartialA', exPartialA] :=
  ⟨List.Perm.swap _ _ _, by decide⟩

/-- C9 amended: whenever the pubkeys slice and the partials slice each
key their entries by distinct trustee ids (as honestly produced inputs
do), `decrypt_vote` returns the same result on any permutations of the
two slices — shares are added in the Election-declared trustee order, not
in slice order. -/
theorem decrypt_vote_permutation_invariant (c : Crypto) (ct : Ciphertext)
    (thr : Nat) (trustees : List Trustee)
    (pk pk' : List KeyGenPublicKeyTransaction)
    (pl pl' : List PartialDecryptionTransaction)
    (hpk : pk.Perm pk') (hpl : pl.Perm pl')
    (hnpk : (pk.map (fun x => x.trustee_id)).Nodup)
    (hnpl : (pl.map (fun x => x.trustee_id)).Nodup) :
    decrypt_vote c ct thr trustees pk pl
      = decrypt_vote c ct thr trustees pk' pl' := by
  unfold decrypt_vote
  rw [shares_of_perm trustees pk pk' pl pl' hpk hpl hnpk hnpl]

/-- C9 witness: swapping the distinct-keyed two-element pubkey and
partial slices leaves the result unchanged. -/
theorem decrypt_vote_permutation_invariant_witness :
    decrypt_vote exShareCrypto ⟨5, 6⟩ 2 [exTrusteeA, exTrusteeB]
        [exPkA, exPkB] [exPartialA, exPartialB]
      = decrypt_vote exShareCrypto ⟨5, 6⟩ 2 [exTrusteeA, exTrusteeB]
        [exPkB, exPkA] [exPartialB, exPartialA] :=
  decrypt_vote_permutation_invariant exShareCrypto ⟨5, 6⟩ 2
    [exTrusteeA, exTrusteeB] [exPkA, exPkB] [exPkB, exPkA]
    [exPartialA, exPartialB] [exPartialB, exPartialA]
    (List.Perm.swap _ _ _) (List.Perm.swap _ _ _) (by decide) (by decide)

/-- C10: in `decrypt_vote` a trustee contributes a share exactly when its
id resolves in both the partials map and the pubkeys map — an entry of
the `add_share` list corresponds to such a trustee, so an unmatched
partial is silently skipped — and the only error `decrypt_vote` ever
returns is `VoteDecryptionFailed` from the final combine. -/
theorem decrypt_vote_share_selection (c : Crypto) (ct : Ciphertext)
    (thr : Nat) (trustees : List Trustee)
    (pk : List KeyGenPublicKeyTransaction)
    (pl : List PartialDecryptionTransaction) :
    (∀ e, decrypt_vote c ct thr trustees pk pl = .error e →
      ∃ d, e = ValidationError.VoteDecryptionFailed d) ∧
    (∀ idx prf sh, (idx, prf, sh) ∈ shares_of trustees pk pl ↔
      ∃ t ∈ trustees, ∃ part pkt,
        map_by pl (fun p => p.trustee_id) t.id = some part ∧
        map_by pk (fun p => p.trustee_id) t.id = some pkt ∧
        idx = t.index.val ∧ prf = pkt.public_key_proof ∧
        sh = part.partial_decryption) := by
  constructor
  · intro e he
    unfold decrypt_vote at he
    cases hf : c.finish thr ct (shares_of trustees pk pl) with
    | ok v =>
      rw [hf] at he
      simp [Except.mapError] at he
    | error d =>
      rw [hf] at he
      simp only [Except.mapError, Except.error.injEq] at he
      exact ⟨d, he.symm⟩
  · intro idx prf sh
    rw [shares_of, List.mem_filterMap]
    constructor
    · rintro ⟨t, ht, hsome⟩
      cases hpl : map_by pl (fun p => p.trustee_id) t.id with
      | none => rw [hpl] at hsome; cases hsome
      | some part =>
        cases hpk : map_by pk (fun p => p.trustee_id) t.id with
        | none => rw [hpl, hpk] at hsome; cases hsome
        | some pkt =>
          rw [hpl, hpk] at hsome
          injection hsome with hs
          injection hs with h3 hs2
          injection hs2 with h4 h5
          subst h3
          subst h4
          subst h5
          exact ⟨t, ht, part, pkt, hpl, hpk, rfl, rfl, rfl⟩
    · rintro ⟨t, ht, part, pkt, h1, h2, h3, h4, h5⟩
      subst h3
      subst h4
      subst h5
      exact ⟨t, ht, by rw [h1, h2]⟩

/-- C10 witness: a failing combiner surfaces only as
`VoteDecryptionFailed`, and the single share of the concrete one-trustee
run corresponds to trustee A's entries in both maps. -/
theorem decrypt_vote_share_selection_witness :
    (∃ d, (ValidationError.VoteDecryptionFailed 3 : ValidationError)
      = ValidationError.VoteDecryptionFailed d) ∧
    (∃ t ∈ [exTrusteeA], ∃ part pkt,
      map_by [exPartialA] (fun p => p.trustee_id) t.id = some part ∧
      map_by [exPkA] (fun p => p.trustee_id) t.id = some pkt ∧
      (1 : Nat) = t.index.val ∧ (500 : Nat) = pkt.public_key_proof ∧
      (7 : Nat) = part.partial_decryption) :=
  ⟨(decrypt_vote_share_selection exFailCrypto ⟨5, 6⟩ 1 [exTrusteeA]
      [exPkA] [exPartialA]).1 (ValidationError.VoteDecryptionFailed 3) rfl,
   ((decrypt_vote_share_selection exFailCrypto ⟨5, 6⟩ 1 [exTrusteeA]
      [exPkA] [exPartialA]).2 1 500 7).mp (by decide)⟩

end Core
